import Mathlib

/-!
Shallow embedding of the scrape/extraction pipeline of `koulu-wrapped`
(`src/app/api/connect-wilma/route.ts`, the streaming variant that defines
`normalizeCourseCode`, `mergeAttendanceIntoGradebookCourses`, `createScrapeJob`,
`pushJobEvent`, `GET`, `runScrapeJob`, `scrapeWilma`, and the five view
extractors).

Modelling conventions:
- DOM access is replaced by explicit input data: each extractor takes the text
  content it would have read from the page.  Cell strings in the models are the
  results of the source's `toText` helper (whitespace-collapsed, trimmed), so
  `toText` itself needs no separate model.
- Browser failures (missing selector, timeout, navigation error) are modelled
  by an `Except String` input: the `.error` branch is the source's `catch`
  branch.
- JavaScript objects and `Map`s used as dictionaries are modelled as
  insertion-ordered association lists (`recSet` updates an existing key in
  place and appends a new one, as JS property assignment does).
- JS numbers are modelled as `ℚ`; `Number.parseFloat` composed with the
  `Number.isFinite` guard is modelled by `parseFloatFinite`.
-/

namespace ConnectWilma

/-- Insertion-ordered dictionary update, the model of `obj[k] = v` on a JS
object (and of `Map.set`): an existing key is updated in place, a new key is
appended. -/
def recSet {α : Type} (l : List (String × α)) (k : String) (v : α) : List (String × α) :=
  match l with
  | [] => [(k, v)]
  | p :: ps => if p.1 = k then (k, v) :: ps else p :: recSet ps k v

/-- Dictionary lookup, the model of `obj[k]` / `Map.get`: the first entry with
the key (a JS object holds at most one). -/
def recGet {α : Type} (l : List (String × α)) (k : String) : Option α :=
  match l with
  | [] => none
  | p :: ps => if p.1 = k then some p.2 else recGet ps k

/-- JS truthiness filter on an optional string: `x || null` yields `null` for
both `null`/`undefined` and the empty string. -/
def truthyStr (x : Option String) : Option String :=
  match x with
  | some s => if s = "" then none else some s
  | none => none

/-- Strip leading and trailing whitespace from a character list. -/
def trimChars (cs : List Char) : List Char :=
  ((cs.dropWhile Char.isWhitespace).reverse.dropWhile Char.isWhitespace).reverse

/-- JS `s.trim()`. -/
def jsTrim (s : String) : String :=
  String.mk (trimChars s.toList)

/-- JS `s.toLowerCase()` (over the ASCII range the scraped codes use). -/
def jsToLower (s : String) : String :=
  String.mk (s.toList.map Char.toLower)

/-- Split a character list at every occurrence of `c`. -/
def splitOnCharAux (c : Char) : List Char → List Char → List (List Char)
  | [], acc => [acc.reverse]
  | x :: xs, acc =>
    if x = c then acc.reverse :: splitOnCharAux c xs []
    else splitOnCharAux c xs (x :: acc)

/-- JS `s.split(sep)` for a one-character separator (the only kind the source
uses: `";"`, `"/"`, `"."`). -/
def splitOnChar (c : Char) (s : String) : List String :=
  (splitOnCharAux c s.toList []).map String.mk

/-- JS `parts.join(sep)` for a one-character separator. -/
def joinSep (sep : Char) : List String → String
  | [] => ""
  | [x] => x
  | x :: xs => x ++ String.mk [sep] ++ joinSep sep xs

/-- JS `s.replace(pat, rep)` with one-character string arguments: only the
first occurrence is replaced. -/
def replaceFirstCharAux (pat rep : Char) : List Char → List Char
  | [] => []
  | c :: cs => if c = pat then rep :: cs else c :: replaceFirstCharAux pat rep cs

def replaceFirstChar (pat rep : Char) (s : String) : String :=
  String.mk (replaceFirstCharAux pat rep s.toList)

/-- Value of a list of decimal digit characters, as `parseInt(s, 10)` computes
it for an all-digit string. -/
def digitsToNat (cs : List Char) : Nat :=
  cs.foldl (fun acc c => acc * 10 + (c.toNat - '0'.toNat)) 0

/-- The normalized rational `num / den`, built from the kernel-computable
`Int` and `Nat` primitives (the library's `Rat` arithmetic does not reduce in
the kernel, so the model constructs its values directly). -/
def qMk (num : Int) (den : Nat) : ℚ :=
  if den = 0 then 0
  else
    let g := num.natAbs.gcd den
    let n := num / (g : Int)
    let d := den / g
    if h : d ≠ 0 ∧ n.natAbs.Coprime d then ⟨n, d, h.1, h.2⟩ else 0

/-- Kernel-computable addition on `ℚ`, the model of JS `+` on numbers. -/
def qAdd (a b : ℚ) : ℚ :=
  qMk (a.num * (b.den : Int) + b.num * (a.den : Int)) (a.den * b.den)

/-- The model of `list.reduce((sum, x) => sum + x, 0)`. -/
def qSum (l : List ℚ) : ℚ :=
  l.foldl qAdd 0

/-- Model of `Number.parseFloat` composed with the `Number.isFinite` guard that
every caller in the source applies: leading whitespace is skipped, an optional
sign, decimal digits with an optional fraction and exponent are parsed, and any
trailing garbage is ignored; a string with no leading numeral (including
`"Infinity"`, which the `isFinite` guard would reject anyway) yields `none`. -/
def parseFloatFinite (s : String) : Option ℚ :=
  let cs := s.toList.dropWhile Char.isWhitespace
  let signed : Int × List Char :=
    match cs with
    | c :: rest => if c = '-' then (-1, rest) else if c = '+' then (1, rest) else (1, cs)
    | [] => (1, [])
  let sign := signed.1
  let cs1 := signed.2
  let intPart := cs1.takeWhile Char.isDigit
  let afterInt := cs1.dropWhile Char.isDigit
  let fracSplit : List Char × List Char :=
    match afterInt with
    | c :: rest =>
      if c = '.' then (rest.takeWhile Char.isDigit, rest.dropWhile Char.isDigit)
      else ([], afterInt)
    | [] => ([], [])
  let fracPart := fracSplit.1
  let afterFrac := fracSplit.2
  if intPart.isEmpty && fracPart.isEmpty then none
  else
    let exponent : Int :=
      match afterFrac with
      | c :: rest =>
        if c = 'e' || c = 'E' then
          match rest with
          | d :: ds =>
            if d = '-' then
              let digs := ds.takeWhile Char.isDigit
              if digs.isEmpty then 0 else -(digitsToNat digs : Int)
            else if d = '+' then
              let digs := ds.takeWhile Char.isDigit
              if digs.isEmpty then 0 else (digitsToNat digs : Int)
            else
              let digs := rest.takeWhile Char.isDigit
              if digs.isEmpty then 0 else (digitsToNat digs : Int)
          | [] => 0
        else 0
      | [] => 0
    let scale := 10 ^ fracPart.length
    let mantNum : Int := sign * ((digitsToNat intPart * scale + digitsToNat fracPart : Nat) : Int)
    match exponent with
    | .ofNat e => some (qMk (mantNum * ((10 ^ e : Nat) : Int)) scale)
    | .negSucc e => some (qMk mantNum (scale * 10 ^ (e + 1)))

/-- `parseNumber` of `getGradesData` (route.ts line 811): empty input is
`null`; otherwise the first `","` is replaced by `"."`, the string is trimmed
and parsed, and a non-finite parse yields `null`. -/
def parseNumber (value : String) : Option ℚ :=
  if value = "" then none
  else parseFloatFinite (jsTrim (replaceFirstChar ',' '.' value))

/-- `parseNumber` of `getEctsSummaryData` (route.ts line 969): same parse but
every failure path yields `0` instead of `null`. -/
def parseNumberOrZero (value : String) : ℚ :=
  let normalized := jsTrim (replaceFirstChar ',' '.' value)
  if normalized = "" then 0
  else (parseFloatFinite normalized).getD 0

/-- Does `s` consist of `lo` to `hi` decimal digits?  Models a `\d{lo,hi}`
regex group anchored on both sides. -/
def isDigitRun (lo hi : Nat) (s : String) : Bool :=
  decide (lo ≤ s.length) && decide (s.length ≤ hi) && s.toList.all Char.isDigit

/-- `"x".padStart(2, "0")`. -/
def padStart2 (s : String) : String :=
  if s.length ≥ 2 then s else if s.length = 1 then "0" ++ s else "00"

/-- `parseDateIso` of `getGradesData` (route.ts line 818): match
`^(\d{1,2})\.(\d{1,2})\.(\d{4})$`, pad day and month to two digits and emit
`YYYY-MM-DD`; a non-matching string yields `null`.  Note the regex checks digit
counts only, not calendar ranges. -/
def parseDateIso (value : String) : Option String :=
  match splitOnChar '.' value with
  | [d, m, y] =>
    if isDigitRun 1 2 d && isDigitRun 1 2 m && isDigitRun 4 4 y then
      some (y ++ "-" ++ padStart2 m ++ "-" ++ padStart2 d)
    else none
  | _ => none

/-- `text.match(/(\d+)/)`: the first maximal run of decimal digits, if any. -/
def firstDigitRun (s : String) : Option (List Char) :=
  let ds := (s.toList.dropWhile (fun c => !c.isDigit)).takeWhile Char.isDigit
  if ds.isEmpty then none else some ds

/-- `normalizeCourseCode` (route.ts line 355): strip all whitespace, trim,
lower-case. -/
def normalizeCourseCode (courseCode : String) : String :=
  jsToLower (jsTrim (String.mk (courseCode.toList.filter (fun c => !c.isWhitespace))))

/-! ## Attendance extractor (`getAttendanceData`, route.ts line 921) -/

structure AttendanceData where
  courseCode : String
  marks : List (String × Nat)
deriving Repr, DecidableEq

/-- The fixed allow-list `relevantMarks` (route.ts line 927). -/
def relevantMarks : List String :=
  ["Terveydellisiin syihin liittyvä poissaolo",
   "Luvaton poissaolo (selvitetty)",
   "Myöhässä alle 15 min"]

/-- Split one `td.event` title: course code is the text before the first `;`
(trimmed), the mark label is the remainder up to the first `/` (trimmed). -/
def splitTitle (title : String) : String × String :=
  match splitOnChar ';' title with
  | [] => ("", "")
  | coursePart :: rest =>
    (jsTrim coursePart, jsTrim ((splitOnChar '/' (joinSep ';' rest)).headD ""))

/-- Processing of one `td.event` cell (its `title` attribute, `none` when the
attribute is absent) against the accumulated per-course counters. -/
def attendanceStep (courses : List (String × List (String × Nat)))
    (title : Option String) : List (String × List (String × Nat)) :=
  match title with
  | none => courses
  | some t =>
    let parts := splitTitle t
    if parts.2 ∈ relevantMarks then
      let cur := (recGet courses parts.1).getD []
      let cnt := (recGet cur parts.2).getD 0
      recSet courses parts.1 (recSet cur parts.2 (cnt + 1))
    else courses

/-- The `page.evaluate` body of `getAttendanceData`: fold all event cells, then
`Object.entries` in insertion order. -/
def getAttendanceOk (titles : List (Option String)) : List AttendanceData :=
  (titles.foldl attendanceStep []).map (fun p => ⟨p.1, p.2⟩)

/-- `getAttendanceData` with its catch-all: any thrown failure yields `[]`. -/
def getAttendanceData (input : Except String (List (Option String))) : List AttendanceData :=
  match input with
  | .error _ => []
  | .ok titles => getAttendanceOk titles

/-! ## Gradebook extractor (`getGradesData`, route.ts line 779) -/

/-- Raw grade value: the source keeps a numeric parse when it succeeds and the
literal text otherwise (`grade: number | string | null`). -/
inductive GradeValue
  | num (q : ℚ)
  | txt (s : String)
deriving Repr, DecidableEq

structure GradebookCourse where
  courseCode : String
  courseName : String
  curriculum : Option String
  subject : Option String
  track : Option String
  hierarchy : List String
  level : Nat
  grade : Option GradeValue
  gradeValue : Option ℚ
  ects : Option ℚ
  completionDate : Option String
  completionDateIso : Option String
  teacher : Option String
  attendanceMarks : Option (List (String × Nat)) := none
  attendanceTotal : Option Nat := none
deriving Repr, DecidableEq

/-- The first (name) cell of a gradebook row.  `secondary` is
`toText(nameCell.querySelector(".secondary-text"))` (the course code, `""` when
the element is absent); `spanClean` is, when the cell has a `span`, the text of
that span with its `.secondary-text` descendants removed; `full` is
`toText(nameCell)`. -/
structure NameCell where
  secondary : String
  spanClean : Option String
  full : String
deriving Repr, DecidableEq

/-- One `#gradebook tbody tr`: the depth from the `levelN` class (`0` when the
class is absent), and — when the row has `td` cells — the name cell plus the
`toText` of cells 1–4 (grade, ECTS, completion date, teacher; `""` when the
cell is missing). -/
structure GbRow where
  level : Nat
  cells : Option (NameCell × String × String × String × String)
deriving Repr, DecidableEq

def GbRow.codeText (r : GbRow) : String :=
  match r.cells with
  | none => ""
  | some (n, _, _, _, _) => n.secondary

def GbRow.gradeText (r : GbRow) : String :=
  match r.cells with
  | none => ""
  | some (_, g, _, _, _) => g

def GbRow.ectsText (r : GbRow) : String :=
  match r.cells with
  | none => ""
  | some (_, _, e, _, _) => e

def GbRow.completedText (r : GbRow) : String :=
  match r.cells with
  | none => ""
  | some (_, _, _, d, _) => d

def GbRow.teacherText (r : GbRow) : String :=
  match r.cells with
  | none => ""
  | some (_, _, _, _, t) => t

/-- The `labelText` computation: the span text without the secondary text when
the cell has a span and that text is non-empty, else the whole cell's text. -/
def GbRow.labelText (r : GbRow) : String :=
  match r.cells with
  | none => ""
  | some (n, _, _, _, _) =>
    match n.spanClean with
    | some s => if s = "" then n.full else s
    | none => n.full

/-- `hierarchyByLevel[level] = labelText` followed by deletion of every key
deeper than `level`. -/
def setAncestor (m : Nat → Option String) (level : Nat) (label : String) :
    Nat → Option String :=
  fun k => if k = level then some label else if level < k then none else m k

/-- Builds the emitted `GradebookCourse` record for a row that passed the
course-code and completion filters (route.ts lines 869–897);
`m1` is the ancestor map after this row's own label update. -/
def mkCourse (m1 : Nat → Option String) (level : Nat)
    (codeText labelText gradeText ectsText completedText teacherText : String) :
    GradebookCourse :=
  let gradeNumeric := parseNumber gradeText
  let immediateParent := truthyStr (m1 (level - 1))
  let level2Parent := truthyStr (m1 2)
  let curriculum := truthyStr (m1 1)
  { courseCode := codeText
    courseName := labelText
    curriculum := curriculum
    subject := if 3 ≤ level then level2Parent <|> immediateParent
               else immediateParent <|> curriculum
    track := immediateParent
    hierarchy := (List.range' 1 (level - 1)).filterMap (fun k => truthyStr (m1 k))
    level := level
    grade :=
      if gradeText = "" then none
      else match gradeNumeric with
        | some q => some (.num q)
        | none => some (.txt gradeText)
    gradeValue := gradeNumeric
    ects := parseNumber ectsText
    completionDate := if completedText = "" then none else some completedText
    completionDateIso := parseDateIso completedText
    teacher := if teacherText = "" then none else some teacherText }

/-- Processing of one gradebook row (route.ts lines 830–898): update the
per-depth ancestor-label map, then emit a course when the row has a non-empty
course code and a non-empty grade or completion date. -/
def gbStep (m : Nat → Option String) (row : GbRow) :
    (Nat → Option String) × Option GradebookCourse :=
  if row.level = 0 then (m, none)
  else
    match row.cells with
    | none => (m, none)
    | some (nameCell, gradeText, _ectsText, completedText, _teacherText) =>
      let labelText := GbRow.labelText row
      let m1 := if labelText = "" then m else setAncestor m row.level labelText
      if nameCell.secondary = "" then (m1, none)
      else if gradeText = "" ∧ completedText = "" then (m1, none)
      else
        (m1, some (mkCourse m1 row.level nameCell.secondary labelText
          row.gradeText row.ectsText row.completedText row.teacherText))

/-- Top-to-bottom walk over the rows, threading the ancestor map. -/
def gbWalk (m : Nat → Option String) : List GbRow → List GradebookCourse
  | [] => []
  | r :: rs =>
    let s := gbStep m r
    match s.2 with
    | some c => c :: gbWalk s.1 rs
    | none => gbWalk s.1 rs

/-- The initial `hierarchyByLevel = {}`. -/
def emptyAncestors : Nat → Option String := fun _ => none

/-- The emitted course list for a row list. -/
def gbCourses (rows : List GbRow) : List GradebookCourse :=
  gbWalk emptyAncestors rows

/-- Grouping of courses into per-subject numeric grade lists (route.ts lines
900–908): courses without a numeric grade are skipped; the subject key falls
back through `subject || track || curriculum || "Muu aine"`. -/
def subjectGroups (courses : List GradebookCourse) : List (String × List ℚ) :=
  courses.foldl
    (fun m course =>
      match course.gradeValue with
      | none => m
      | some q =>
        let subjectName :=
          ((truthyStr course.subject <|> truthyStr course.track) <|>
            truthyStr course.curriculum).getD "Muu aine"
        recSet m subjectName (((recGet m subjectName).getD []) ++ [q]))
    []

structure GradesResult where
  subjects : List String
  grades : List (List ℚ)
  gradebookCourses : List GradebookCourse
deriving Repr, DecidableEq

/-- The `page.evaluate` body of `getGradesData`. -/
def getGradesOk (rows : List GbRow) : GradesResult :=
  let gradebookCourses := gbCourses rows
  let groups := subjectGroups gradebookCourses
  ⟨groups.map (fun p => p.1), groups.map (fun p => p.2), gradebookCourses⟩

/-- `getGradesData` with its catch-all: any thrown failure yields the empty
result. -/
def getGradesData (input : Except String (List GbRow)) : GradesResult :=
  match input with
  | .error _ => ⟨[], [], []⟩
  | .ok rows => getGradesOk rows

/-! ## ECTS summary extractor (`getEctsSummaryData`, route.ts line 960) -/

structure EctsSummaryRow where
  courseType : String
  byYear : List (String × ℚ)
  total : ℚ
deriving Repr, DecidableEq

structure EctsSummary where
  years : List String
  byYear : List (String × ℚ)
  total : ℚ
  rows : List EctsSummaryRow
deriving Repr, DecidableEq

/-- The `#credits-summary-table` as the extractor reads it: `toText` of every
`thead th`, `toText` of the `td`s of every `tbody tr`, and — when a
`tfoot tr.total` exists — `toText` of its `td`s. -/
structure EctsTable where
  headerCells : List String
  bodyRows : List (List String)
  footerTotals : Option (List String)
deriving Repr, DecidableEq

/-- One body row's record: skipped with fewer than two cells or an empty first
cell; year values are read positionally after the category cell, the row total
from the last cell. -/
def ectsBodyRow (years : List String) (cells : List String) : Option EctsSummaryRow :=
  if cells.length < 2 then none
  else
    let courseType := cells.headD ""
    if courseType = "" then none
    else
      let byYear := years.enum.foldl
        (fun rec p => recSet rec p.2 (parseNumberOrZero (cells.getD (p.1 + 1) ""))) []
      some ⟨courseType, byYear, parseNumberOrZero (cells.getLastD "")⟩

/-- The `page.evaluate` body of `getEctsSummaryData` (route.ts lines
964–1021): year labels are the non-empty header cells between the first and
last column; a footer totals row, when present, supplies the per-year and
grand totals, otherwise they are summed over the body rows. -/
def getEctsOk (t : EctsTable) : EctsSummary :=
  let yearColumns := (t.headerCells.drop 1).dropLast
  let years := yearColumns.filter (fun v => v ≠ "")
  let rows := t.bodyRows.filterMap (ectsBodyRow years)
  match t.footerTotals with
  | some totalCells =>
    let byYear := years.enum.foldl
      (fun rec p => recSet rec p.2 (parseNumberOrZero (totalCells.getD (p.1 + 1) ""))) []
    ⟨years, byYear, parseNumberOrZero (totalCells.getLastD ""), rows⟩
  | none =>
    let byYear := years.foldl
      (fun rec year =>
        recSet rec year (qSum (rows.map (fun r => (recGet r.byYear year).getD 0)))) []
    ⟨years, byYear, qSum (rows.map (fun r => r.total)), rows⟩

/-- `getEctsSummaryData` with its catch-all (the `!table` early return and the
`catch` branch both yield the empty summary). -/
def getEctsSummaryData (input : Except String EctsTable) : EctsSummary :=
  match input with
  | .error _ => ⟨[], [], 0, []⟩
  | .ok t => getEctsOk t

/-! ## Profile and unread-count extractors (route.ts lines 736, 759) -/

structure UserProfile where
  name : Option String
  school : Option String
deriving Repr, DecidableEq

/-- `getUserProfile`: the input carries the raw `textContent` of the name and
school elements (`none` when the element or its text is absent); texts are
trimmed and empty results become `null`.  Any thrown failure yields the
all-null profile. -/
def getUserProfile (input : Except String (Option String × Option String)) : UserProfile :=
  match input with
  | .error _ => ⟨none, none⟩
  | .ok (n, s) => ⟨truthyStr (n.map jsTrim), truthyStr (s.map jsTrim)⟩

/-- `getUnreadMessages`: the outer option is the badge element's presence, the
inner its `textContent`; the count is the first digit run of a truthy text.
Any thrown failure yields `0`. -/
def getUnreadMessages (input : Except String (Option (Option String))) : Nat :=
  match input with
  | .error _ => 0
  | .ok none => 0
  | .ok (some text?) =>
    match text? with
    | none => 0
    | some text =>
      if text = "" then 0
      else
        match firstDigitRun text with
        | none => 0
        | some ds => digitsToNat ds

/-! ## Attendance merge and scrape pipeline (route.ts lines 359, 619) -/

/-- `mergeAttendanceIntoGradebookCourses` (route.ts line 359): index the
attendance records by normalized course code (later records overwrite earlier
ones, as `Map.set` does), then give every gradebook course its marks (or `{}`)
and their sum. -/
def mergeAttendanceIntoGradebookCourses (gradebookCourses : List GradebookCourse)
    (attendance : List AttendanceData) : List GradebookCourse :=
  let attendanceByCode := attendance.foldl
    (fun m c => recSet m (normalizeCourseCode c.courseCode) c.marks) []
  gradebookCourses.map (fun course =>
    let attendanceMarks := (recGet attendanceByCode (normalizeCourseCode course.courseCode)).getD []
    let attendanceTotal := (attendanceMarks.map (fun p => p.2)).sum
    { course with
        attendanceMarks := some attendanceMarks
        attendanceTotal := some attendanceTotal })

inductive ScrapeMode
  | all
  | unread
  | grades
  | attendance
deriving Repr, DecidableEq

structure WrappedDataResponse where
  success : Bool
  unreadMessages : Option Nat := none
  subjects : Option (List String) := none
  grades : Option (List (List ℚ)) := none
  gradebookCourses : Option (List GradebookCourse) := none
  ectsSummary : Option EctsSummary := none
  attendance : Option (List AttendanceData) := none
  userProfile : Option UserProfile := none
  error : Option String := none
  details : Option String := none
  status : Option Nat := none
deriving Repr, DecidableEq

/-- The page data a logged-in scrape would read, one field per extractor. -/
structure PageData where
  unreadBadge : Except String (Option (Option String))
  profile : Except String (Option String × Option String)
  gradebookRows : Except String (List GbRow)
  ectsTable : Except String EctsTable
  attendanceTitles : Except String (List (Option String))

/-- The per-mode result assembly of `scrapeWilma` after a successful login
(route.ts lines 659–728): each mode runs its own extractors and only mode
`all` merges attendance into the gradebook courses. -/
def scrapeWilmaResult (mode : ScrapeMode) (page : PageData) : WrappedDataResponse :=
  let userProfile := getUserProfile page.profile
  match mode with
  | .unread =>
    { success := true
      unreadMessages := some (getUnreadMessages page.unreadBadge)
      userProfile := some userProfile }
  | .grades =>
    let g := getGradesData page.gradebookRows
    let ectsSummary := getEctsSummaryData page.ectsTable
    { success := true
      subjects := some g.subjects
      grades := some g.grades
      gradebookCourses := some g.gradebookCourses
      ectsSummary := some ectsSummary
      userProfile := some userProfile }
  | .attendance =>
    { success := true
      attendance := some (getAttendanceData page.attendanceTitles)
      userProfile := some userProfile }
  | .all =>
    let unreadMessages := getUnreadMessages page.unreadBadge
    let g := getGradesData page.gradebookRows
    let ectsSummary := getEctsSummaryData page.ectsTable
    let attendance := getAttendanceData page.attendanceTitles
    let merged := mergeAttendanceIntoGradebookCourses g.gradebookCourses attendance
    { success := true
      unreadMessages := some unreadMessages
      subjects := some g.subjects
      grades := some g.grades
      gradebookCourses := some merged
      ectsSummary := some ectsSummary
      attendance := some attendance
      userProfile := some userProfile }

/-! ## Job manager and progress channel (route.ts lines 299–509, 569–617) -/

structure ProgressUpdate where
  progress : Nat
  phase : String
  message : String
deriving Repr, DecidableEq

inductive StreamEvent
  | progress (u : ProgressUpdate)
  | done (u : ProgressUpdate) (result : WrappedDataResponse)
  | error (u : ProgressUpdate) (error : String) (details : Option String) (status : Nat)
deriving DecidableEq

def StreamEvent.update : StreamEvent → ProgressUpdate
  | .progress u => u
  | .done u _ => u
  | .error u _ _ _ => u

def StreamEvent.isProgress : StreamEvent → Bool
  | .progress _ => true
  | _ => false

def eventPercent (e : StreamEvent) : Nat := e.update.progress

/-- The observable job state: the last pushed event and the finished flag. -/
structure JobState where
  currentEvent : StreamEvent
  finished : Bool
deriving DecidableEq

/-- The initial event of `createScrapeJob` (route.ts line 385). -/
def initialJobEvent : StreamEvent :=
  .progress ⟨2, "queued", "Käynnistetään scraping..."⟩

/-- `createScrapeJob`: a fresh job with the queued event and `finished =
false`. -/
def createScrapeJob : JobState :=
  ⟨initialJobEvent, false⟩

/-- `pushJobEvent` (route.ts line 408) restricted to the per-job state it
mutates: the event becomes the job's current event, and a non-progress event
marks the job finished. -/
def pushJobEvent (j : JobState) (e : StreamEvent) : JobState :=
  ⟨e, j.finished || !e.isProgress⟩

def pushAll (j : JobState) (es : List StreamEvent) : JobState :=
  es.foldl pushJobEvent j

/-- The subscription side of `GET` (route.ts lines 466–500): a new subscriber
is immediately sent the job's current event, and the stream is closed at once
exactly when the job is finished. -/
structure AttachResult where
  delivered : List StreamEvent
  closed : Bool
deriving DecidableEq

def attachToJob (j : JobState) : AttachResult :=
  ⟨[j.currentEvent], j.finished⟩

/-- The `onProgress` updates `scrapeWilma` emits for each mode on a run that
reaches its return (route.ts lines 637–718). -/
def scrapeProgressUpdates (mode : ScrapeMode) : List ProgressUpdate :=
  match mode with
  | .unread =>
    [⟨8, "login", "Yhdistetään Wilmaan..."⟩,
     ⟨24, "login-success", "Kirjautuminen onnistui."⟩,
     ⟨55, "unread", "Haetaan viestit..."⟩,
     ⟨92, "unread", "Viestit haettu."⟩]
  | .grades =>
    [⟨8, "login", "Yhdistetään Wilmaan..."⟩,
     ⟨24, "login-success", "Kirjautuminen onnistui."⟩,
     ⟨52, "grades", "Haetaan arvosanat..."⟩,
     ⟨92, "grades", "Arvosanat haettu."⟩]
  | .attendance =>
    [⟨8, "login", "Yhdistetään Wilmaan..."⟩,
     ⟨24, "login-success", "Kirjautuminen onnistui."⟩,
     ⟨52, "attendance", "Haetaan poissaolot..."⟩,
     ⟨92, "attendance", "Poissaolot haettu."⟩]
  | .all =>
    [⟨8, "login", "Yhdistetään Wilmaan..."⟩,
     ⟨24, "login-success", "Kirjautuminen onnistui."⟩,
     ⟨40, "unread", "Haetaan viestit..."⟩,
     ⟨58, "grades", "Haetaan arvosanat..."⟩,
     ⟨82, "attendance", "Haetaan poissaolot..."⟩,
     ⟨96, "finalizing", "Viimeistellään wrapped..."⟩]

/-- The terminal event of a successful `runScrapeJob` (route.ts line 595). -/
def doneEvent (result : WrappedDataResponse) : StreamEvent :=
  .done ⟨100, "done", "Wrapped on valmis."⟩ result

/-- The terminal event of a failed `runScrapeJob` (route.ts line 604). -/
def errorEvent (err : String) (details : Option String) (status : Nat) : StreamEvent :=
  .error ⟨100, "error", "Scraping epäonnistui."⟩ err details status

/-- The event sequence `runScrapeJob` pushes on success: every progress update
of the mode, then the done event. -/
def runJobEventsSuccess (mode : ScrapeMode) (result : WrappedDataResponse) :
    List StreamEvent :=
  (scrapeProgressUpdates mode).map .progress ++ [doneEvent result]

/-- The event sequence `runScrapeJob` pushes when the pipeline throws after
`k` progress updates: the prefix of the mode's updates, then the error
event. -/
def runJobEventsFailure (mode : ScrapeMode) (k : Nat) (err : String)
    (details : Option String) (status : Nat) : List StreamEvent :=
  ((scrapeProgressUpdates mode).take k).map .progress ++ [errorEvent err details status]

/-! ## Concrete sample inputs for the executable checks -/

/-- A curriculum header row (depth 1, no course code) followed by a depth-3
course row whose depth-2 ancestor never occurred. -/
def rowsSkipLevel : List GbRow :=
  [⟨1, some (⟨"", some "A", "A"⟩, "", "", "", "")⟩,
   ⟨3, some (⟨"X1", some "Kurssi", "Kurssi"⟩, "8", "", "", "")⟩]

/-- The course the walk emits for `rowsSkipLevel`. -/
def courseSkipLevel : GradebookCourse :=
  ⟨"X1", "Kurssi", some "A", none, none, ["A"], 3, some (.num 8), some 8,
   none, none, none, none, none, none⟩

/-- A row carrying a course code and a grade but no `levelN` class. -/
def rowNoLevel : GbRow :=
  ⟨0, some (⟨"X1", some "Kurssi", "Kurssi"⟩, "8", "", "", "")⟩

/-- A depth-1 row with a course code, no grade and completion date
`"45.1.2025"`. -/
def rowCompletedL1 : GbRow :=
  ⟨1, some (⟨"BG04", some "Biologia", "Biologia"⟩, "", "", "45.1.2025", "")⟩

/-- The course the walk emits for `rowCompletedL1` alone. -/
def courseCompleted45 : GradebookCourse :=
  ⟨"BG04", "Biologia", some "Biologia", some "Biologia", none, [], 1, none, none,
   none, some "45.1.2025", some "2025-01-45", none, none, none⟩

/-- A gradebook course whose code is stored lower-case without spaces. -/
def courseBg04 : GradebookCourse :=
  ⟨"bg04", "Biologia", none, none, none, [], 1, some (.num 9), some 9,
   none, none, none, none, none, none⟩

/-- An attendance record whose raw code differs from `courseBg04`'s only by
case and a trailing space. -/
def attendanceBg04 : AttendanceData :=
  ⟨"BG04 ", [("Myöhässä alle 15 min", 2)]⟩

/-- An attendance record for an unrelated course. -/
def attendanceOther : AttendanceData :=
  ⟨"MAA02", [("Myöhässä alle 15 min", 1)]⟩

/-- The ECTS table of the worked example: year columns 2024 and 2025, two body
rows with their own total cells, no footer totals row. -/
def sampleEctsTable : EctsTable :=
  ⟨["Tyyppi", "2024", "2025", "Yhteensä"],
   [["Pakollinen", "5", "3", "8"], ["Valinnainen", "2", "1", "3"]],
   none⟩

/-- A terminal done event with a minimal result. -/
def sampleDone : StreamEvent := doneEvent { success := true }

/-- All mark labels stored in the accumulated attendance counters are from the
allow-list. -/
def MarksOk (courses : List (String × List (String × Nat))) : Prop :=
  ∀ q ∈ courses, ∀ p ∈ q.2, p.1 ∈ relevantMarks

/-! ## Dictionary lemmas -/

theorem recGet_recSet {α : Type} (l : List (String × α)) (k k' : String) (v : α) :
    recGet (recSet l k v) k' = if k' = k then some v else recGet l k' := by
  induction l with
  | nil =>
    by_cases h : k' = k
    · simp [recSet, recGet, h]
    · have h2 : ¬ k = k' := fun hh => h hh.symm
      simp [recSet, recGet, h, h2]
  | cons p ps ih =>
    by_cases hp : p.1 = k
    · have hrec : recSet (p :: ps) k v = (k, v) :: ps := by simp [recSet, hp]
      rw [hrec]
      by_cases h : k' = k
      · simp [recGet, h]
      · have h2 : ¬ k = k' := fun hh => h hh.symm
        have h3 : ¬ p.1 = k' := fun hh => h2 (hp.symm.trans hh)
        simp [recGet, h, h2, h3]
    · have hrec : recSet (p :: ps) k v = p :: recSet ps k v := by simp [recSet, hp]
      rw [hrec]
      by_cases hpk : p.1 = k'
      · have hk : ¬ k' = k := fun h => hp (hpk.trans h)
        simp [recGet, hpk, hk]
      · simp [recGet, hpk, ih]

theorem recGet_mem {α : Type} {l : List (String × α)} {k : String} {v : α}
    (h : recGet l k = some v) : (k, v) ∈ l := by
  induction l with
  | nil => simp [recGet] at h
  | cons p ps ih =>
    obtain ⟨a, b⟩ := p
    by_cases hp : a = k
    · simp only [recGet, hp, if_true, Option.some.injEq] at h
      subst hp
      subst h
      exact List.mem_cons_self _ _
    · simp only [recGet, hp, if_false] at h
      exact List.mem_cons_of_mem _ (ih h)

theorem mem_recSet {α : Type} {l : List (String × α)} {k : String} {v : α} {q : String × α}
    (h : q ∈ recSet l k v) : q = (k, v) ∨ q ∈ l := by
  induction l with
  | nil => simpa [recSet] using h
  | cons p ps ih =>
    by_cases hp : p.1 = k
    · simp [recSet, hp] at h
      rcases h with h | h
      · exact Or.inl h
      · exact Or.inr (List.mem_cons_of_mem _ h)
    · simp [recSet, hp] at h
      rcases h with h | h
      · exact Or.inr (by simp [h])
      · rcases ih h with h' | h'
        · exact Or.inl h'
        · exact Or.inr (List.mem_cons_of_mem _ h')

theorem recGet_foldl_none {α β : Type} (xs : List β) (normf : β → String) (valf : β → α)
    (key : String) :
    ∀ (init : List (String × α)), recGet init key = none →
      (∀ a ∈ xs, normf a ≠ key) →
      recGet (xs.foldl (fun m a => recSet m (normf a) (valf a)) init) key = none := by
  induction xs with
  | nil => intro init hinit _; simpa using hinit
  | cons x xs ih =>
    intro init hinit hall
    simp only [List.foldl_cons]
    refine ih _ ?_ (fun a ha => hall a (List.mem_cons_of_mem _ ha))
    rw [recGet_recSet]
    have : ¬ key = normf x := fun h => hall x (List.mem_cons_self _ _) h.symm
    simp [this, hinit]

theorem recGet_foldl_set {α : Type} (v : String → α) :
    ∀ (ys : List String) (init : List (String × α)) (y : String),
      recGet (ys.foldl (fun m z => recSet m z (v z)) init) y =
        if y ∈ ys then some (v y) else recGet init y := by
  intro ys
  induction ys with
  | nil => intro init y; simp
  | cons z zs ih =>
    intro init y
    simp only [List.foldl_cons, ih, recGet_recSet]
    by_cases hy : y ∈ zs
    · simp [hy]
    · by_cases hz : y = z <;> simp [hy, hz]

theorem truthyStr_ne_empty {x : Option String} {s : String}
    (h : truthyStr x = some s) : s ≠ "" := by
  cases x with
  | none => simp [truthyStr] at h
  | some t =>
    by_cases ht : t = "" <;> simp [truthyStr, ht] at h
    rw [← h]; exact ht

/-! ## Claim C9: extractor failure isolation -/

/-- Claim C9: no view extractor propagates an internal failure; each one maps
any caught failure to its safe empty value (0 unread messages, all-null
profile, empty grades result, empty attendance list, empty ECTS summary) —
and, the functions being total, no error value escapes them. -/
theorem extractors_safe_on_failure : ∀ e : String,
    getUserProfile (.error e) = ⟨none, none⟩ ∧
    getUnreadMessages (.error e) = 0 ∧
    getGradesData (.error e) = ⟨[], [], []⟩ ∧
    getAttendanceData (.error e) = [] ∧
    getEctsSummaryData (.error e) = ⟨[], [], 0, []⟩ :=
  fun _ => ⟨rfl, rfl, rfl, rfl, rfl⟩

/-! ## Claim C3: attendance merge happens exactly in mode `all` -/

/-- Claim C3: mode `all` returns the gradebook courses with the attendance
merge applied; mode `grades` returns them unmerged and mode `attendance` and
`unread` return none at all; the merge keys by `normalizeCourseCode`, under
which `"BG04 "` and `"bg04"` coincide, so attendance recorded under `"BG04 "`
lands on the course coded `"bg04"`. -/
theorem merge_only_in_all_mode :
    (∀ page : PageData,
      (scrapeWilmaResult .all page).gradebookCourses =
        some (mergeAttendanceIntoGradebookCourses
          (getGradesData page.gradebookRows).gradebookCourses
          (getAttendanceData page.attendanceTitles))) ∧
    (∀ page : PageData,
      (scrapeWilmaResult .grades page).gradebookCourses =
        some (getGradesData page.gradebookRows).gradebookCourses) ∧
    (∀ page : PageData,
      (scrapeWilmaResult .attendance page).gradebookCourses = none ∧
      (scrapeWilmaResult .unread page).gradebookCourses = none) ∧
    normalizeCourseCode "BG04 " = normalizeCourseCode "bg04" ∧
    (mergeAttendanceIntoGradebookCourses [courseBg04] [attendanceBg04]).map
        (fun c => (c.attendanceMarks, c.attendanceTotal)) =
      [(some [("Myöhässä alle 15 min", 2)], some 2)] := by
  refine ⟨fun _ => rfl, fun _ => rfl, fun _ => ⟨rfl, rfl⟩, by decide, by decide⟩

/-! ## Gradebook walk lemmas -/

theorem gbStep_emit {m : Nat → Option String} {row : GbRow} {c : GradebookCourse}
    (h : (gbStep m row).2 = some c) :
    row.level ≠ 0 ∧ row.codeText ≠ "" ∧
    (row.gradeText ≠ "" ∨ row.completedText ≠ "") ∧
    c = mkCourse (gbStep m row).1 row.level row.codeText row.labelText
          row.gradeText row.ectsText row.completedText row.teacherText := by
  obtain ⟨lvl, cells⟩ := row
  by_cases h0 : lvl = 0
  · subst h0; simp [gbStep] at h
  · cases cells with
    | none => simp [gbStep, h0] at h
    | some q =>
      obtain ⟨n, g, e, d, t⟩ := q
      by_cases hcode : n.secondary = ""
      · simp [gbStep, h0, hcode] at h
      · by_cases hgd : g = "" ∧ d = ""
        · simp [gbStep, h0, hcode, hgd] at h
        · refine ⟨h0, by simpa [GbRow.codeText] using hcode, ?_, ?_⟩
          · rcases not_and_or.mp hgd with hg | hd
            · exact Or.inl (by simpa [GbRow.gradeText] using hg)
            · exact Or.inr (by simpa [GbRow.completedText] using hd)
          · simp only [gbStep, h0, if_false, hcode, hgd] at h ⊢
            simp only [GbRow.codeText]
            exact (Option.some.inj h).symm

theorem gbWalk_cons (m : Nat → Option String) (r : GbRow) (rs : List GbRow) :
    gbWalk m (r :: rs) =
      match (gbStep m r).2 with
      | some c => c :: gbWalk (gbStep m r).1 rs
      | none => gbWalk (gbStep m r).1 rs := rfl

theorem mem_gbWalk {c : GradebookCourse} :
    ∀ (rows : List GbRow) (m : Nat → Option String), c ∈ gbWalk m rows →
      ∃ m' row, (gbStep m' row).2 = some c := by
  intro rows
  induction rows with
  | nil => intro m h; simp [gbWalk] at h
  | cons r rs ih =>
    intro m h
    rw [gbWalk_cons] at h
    cases hs : (gbStep m r).2 with
    | some c0 =>
      rw [hs] at h
      rcases List.mem_cons.mp h with h | h
      · exact ⟨m, r, by rw [hs, h]⟩
      · exact ih _ h
    | none =>
      rw [hs] at h
      exact ih _ h

/-! ## Claim C1: hierarchy shape of emitted courses -/

/-- Claim C1, counterexample: in `rowsSkipLevel` the depth-3 course row has no
depth-2 ancestor, so the emitted course's hierarchy has length 1, not
`level - 1 = 2`. -/
theorem hierarchy_length_counterexample :
    courseSkipLevel ∈ gbCourses rowsSkipLevel ∧
    ¬ (∀ c ∈ gbCourses rowsSkipLevel, c.hierarchy.length = c.level - 1) := by
  decide

/-- Claim C1 (amended): every emitted course's hierarchy has length at most
`level - 1` (with equality exactly when every ancestor level recorded a label)
and contains only non-empty labels; the hierarchy lists, in ascending
(root-to-parent) level order, the recorded labels of levels `1` to
`level - 1`. -/
theorem hierarchy_of_emitted :
    (∀ (rows : List GbRow), ∀ c ∈ gbCourses rows,
      c.hierarchy.length ≤ c.level - 1 ∧ ∀ lab ∈ c.hierarchy, lab ≠ "") ∧
    (∀ (m : Nat → Option String) (row : GbRow) (c : GradebookCourse),
      (gbStep m row).2 = some c → c.level = row.level ∧
        c.hierarchy = (List.range' 1 (row.level - 1)).filterMap
          (fun k => truthyStr ((gbStep m row).1 k))) := by
  have hstep : ∀ (m : Nat → Option String) (row : GbRow) (c : GradebookCourse),
      (gbStep m row).2 = some c → c.level = row.level ∧
        c.hierarchy = (List.range' 1 (row.level - 1)).filterMap
          (fun k => truthyStr ((gbStep m row).1 k)) := by
    intro m row c h
    obtain ⟨-, -, -, hc⟩ := gbStep_emit h
    subst hc
    exact ⟨rfl, rfl⟩
  refine ⟨?_, hstep⟩
  intro rows c hc
  obtain ⟨m', row, h⟩ := mem_gbWalk rows emptyAncestors hc
  obtain ⟨hlvl, hhier⟩ := hstep m' row c h
  constructor
  · rw [hhier, hlvl]
    calc ((List.range' 1 (row.level - 1)).filterMap
            (fun k => truthyStr ((gbStep m' row).1 k))).length
        ≤ (List.range' 1 (row.level - 1)).length := List.length_filterMap_le _ _
      _ = row.level - 1 := List.length_range' ..
  · intro lab hlab
    rw [hhier] at hlab
    obtain ⟨k, -, hk⟩ := List.mem_filterMap.mp hlab
    exact truthyStr_ne_empty hk

/-- Claim C1, witness: the depth-3 course emitted from `rowsSkipLevel` has
hierarchy length (1) at most `level - 1` (2). -/
theorem hierarchy_of_emitted_witness :
    courseSkipLevel.hierarchy.length ≤ courseSkipLevel.level - 1 :=
  (hierarchy_of_emitted.1 rowsSkipLevel courseSkipLevel (by decide)).1

/-! ## Claim C2: completion-date parsing -/

/-- Claim C2, counterexample: the parser checks only the digit pattern, so the
out-of-range day in `"45.1.2025"` is not mapped to the null ISO date — it is
padded into `"2025-01-45"`. -/
theorem parseDateIso_counterexample :
    parseDateIso "45.1.2025" = some "2025-01-45" ∧
    ¬ parseDateIso "45.1.2025" = none := by
  exact ⟨by decide, by decide⟩

/-- Claim C2 (amended): `"3.9.2025"` normalizes to `"2025-09-03"`; the parse
yields a null ISO date exactly when the text does not match the
`D.M.YYYY` digit-count pattern — it fails to split into three dot-separated
parts, or some part fails its digit-run check (so `"3.9.25"` and
`"123.4.2025"` yield null); `"45.1.2025"` matches the pattern and yields
`"2025-01-45"` (day ranges are not validated); and every emitted course
preserves the raw completion-date text alongside the parsed ISO date. -/
theorem parseDateIso_spec :
    parseDateIso "3.9.2025" = some "2025-09-03" ∧
    parseDateIso "45.1.2025" = some "2025-01-45" ∧
    (∀ s : String, parseDateIso s = none ↔
      ∀ d m y, splitOnChar '.' s = [d, m, y] →
        (isDigitRun 1 2 d && isDigitRun 1 2 m && isDigitRun 4 4 y) = false) ∧
    (∀ (m : Nat → Option String) (row : GbRow) (c : GradebookCourse),
      (gbStep m row).2 = some c →
        c.completionDate =
          (if row.completedText = "" then none else some row.completedText) ∧
        c.completionDateIso = parseDateIso row.completedText) := by
  refine ⟨by decide, by decide, ?_, ?_⟩
  · intro s
    unfold parseDateIso
    rcases hs : splitOnChar '.' s with _ | ⟨a, _ | ⟨b, _ | ⟨c, _ | ⟨d0, rest⟩⟩⟩⟩ <;>
      simp only [hs]
    · simp
    · simp
    · simp
    · constructor
      · intro h d m y heq
        have heq' : a = d ∧ b = m ∧ c = y := by simpa using heq
        obtain ⟨rfl, rfl, rfl⟩ := heq'
        by_cases hck : (isDigitRun 1 2 a && isDigitRun 1 2 b && isDigitRun 4 4 c) = true
        · rw [if_pos hck] at h
          simp at h
        · simpa using hck
      · intro h
        simp [h a b c rfl]
    · simp
  · intro m row c h
    obtain ⟨-, -, -, hc⟩ := gbStep_emit h
    subst hc
    exact ⟨rfl, rfl⟩

/-- Claim C2, witness: non-matching strings — no dots at all, or a two-digit
year among three dot-parts — map to the null ISO date, and the course emitted
from the row with completion date `"45.1.2025"` keeps that raw text while its
ISO field holds `"2025-01-45"`. -/
theorem parseDateIso_spec_witness :
    parseDateIso "2025-09-03" = none ∧
    parseDateIso "3.9.25" = none ∧
    courseCompleted45.completionDate = some "45.1.2025" ∧
    courseCompleted45.completionDateIso = some "2025-01-45" := by
  refine ⟨(parseDateIso_spec.2.2.1 "2025-09-03").mpr ?_,
    (parseDateIso_spec.2.2.1 "3.9.25").mpr ?_, ?_, ?_⟩
  · intro d m y h
    have hs : splitOnChar '.' "2025-09-03" = ["2025-09-03"] := by decide
    rw [hs] at h
    simp at h
  · intro d m y h
    have hs : splitOnChar '.' "3.9.25" = ["3", "9", "25"] := by decide
    rw [hs] at h
    have h' : "3" = d ∧ "9" = m ∧ "25" = y := by simpa using h
    obtain ⟨rfl, rfl, rfl⟩ := h'
    decide
  · have h := (parseDateIso_spec.2.2.2 emptyAncestors rowCompletedL1 courseCompleted45
      (by decide)).1
    rw [h]; decide
  · have h := (parseDateIso_spec.2.2.2 emptyAncestors rowCompletedL1 courseCompleted45
      (by decide)).2
    rw [h]; decide

/-! ## Claim C5: the emission condition -/

/-- Claim C5, counterexample: a row with a non-empty course code and a
non-empty grade but no `levelN` class is not emitted, refuting the claimed
"if and only if". -/
theorem row_emitted_counterexample :
    rowNoLevel.codeText = "X1" ∧ rowNoLevel.gradeText = "8" ∧
    gbCourses [rowNoLevel] = [] ∧
    ¬ (((gbStep emptyAncestors rowNoLevel).2).isSome = true ↔
        (rowNoLevel.codeText ≠ "" ∧
          (rowNoLevel.gradeText ≠ "" ∨ rowNoLevel.completedText ≠ ""))) := by
  decide

/-- Claim C5 (amended): a row is emitted as a course if and only if it has a
positive depth level, a non-empty course code and a non-empty grade or
completion date; and an emitted depth-1 row has an empty hierarchy. -/
theorem row_emitted_iff :
    (∀ (m : Nat → Option String) (row : GbRow),
      ((gbStep m row).2).isSome = true ↔
        (row.level ≠ 0 ∧ row.codeText ≠ "" ∧
          (row.gradeText ≠ "" ∨ row.completedText ≠ ""))) ∧
    (∀ (m : Nat → Option String) (row : GbRow) (c : GradebookCourse),
      row.level = 1 → (gbStep m row).2 = some c → c.hierarchy = []) := by
  constructor
  · intro m row
    constructor
    · intro h
      obtain ⟨c, hc⟩ := Option.isSome_iff_exists.mp h
      obtain ⟨h1, h2, h3, -⟩ := gbStep_emit hc
      exact ⟨h1, h2, h3⟩
    · rintro ⟨h1, h2, h3⟩
      obtain ⟨lvl, cells⟩ := row
      cases cells with
      | none => simp [GbRow.codeText] at h2
      | some q =>
        obtain ⟨n, g, e, d, t⟩ := q
        have hcode : ¬ n.secondary = "" := by simpa [GbRow.codeText] using h2
        have hgd : ¬ (g = "" ∧ d = "") := by
          rcases h3 with h3 | h3
          · exact fun hh => h3 hh.1
          · exact fun hh => h3 hh.2
        simp [gbStep, h1, hcode, hgd]
  · intro m row c hlvl h
    obtain ⟨-, -, -, hc⟩ := gbStep_emit h
    subst hc
    simp [mkCourse, hlvl]

/-- Claim C5, witness: the depth-1 row with a course code and completion date
`"45.1.2025"` is emitted, and its course has an empty hierarchy. -/
theorem row_emitted_iff_witness :
    ((gbStep emptyAncestors rowCompletedL1).2).isSome = true ∧
    courseCompleted45.hierarchy = [] := by
  refine ⟨(row_emitted_iff.1 emptyAncestors rowCompletedL1).mpr (by decide), ?_⟩
  exact row_emitted_iff.2 emptyAncestors rowCompletedL1 courseCompleted45 rfl (by decide)

/-! ## Claim C6: the attendance allow-list -/

theorem attendanceStep_marksOk {courses : List (String × List (String × Nat))}
    {title : Option String} (h : MarksOk courses) :
    MarksOk (attendanceStep courses title) := by
  cases title with
  | none => exact h
  | some t =>
    unfold attendanceStep
    by_cases hm : (splitTitle t).2 ∈ relevantMarks
    · simp only [hm, if_true]
      intro q hq p hp
      rcases mem_recSet hq with rfl | hq'
      · rcases mem_recSet hp with rfl | hp'
        · exact hm
        · cases hg : recGet courses (splitTitle t).1 with
          | none => rw [hg] at hp'; simp at hp'
          | some cur =>
            rw [hg] at hp'
            exact h _ (recGet_mem hg) p hp'
      · exact h q hq' p hp
    · simp only [hm, if_false]
      exact h

theorem foldl_attendanceStep_marksOk (titles : List (Option String)) :
    ∀ (acc : List (String × List (String × Nat))), MarksOk acc →
      MarksOk (titles.foldl attendanceStep acc) := by
  induction titles with
  | nil => intro acc h; exact h
  | cons t ts ih =>
    intro acc h
    exact ih _ (attendanceStep_marksOk h)

/-- Claim C6: for every attendance input, every mark label that appears in any
course's marks mapping is one of the three allow-listed labels, and processing
an event whose mark label is outside the allow-list leaves the accumulated
counts unchanged. -/
theorem attendance_allowlist :
    (∀ (input : Except String (List (Option String))) (c : AttendanceData),
      c ∈ getAttendanceData input → ∀ p ∈ c.marks, p.1 ∈ relevantMarks) ∧
    (∀ (courses : List (String × List (String × Nat))) (t : String),
      (splitTitle t).2 ∉ relevantMarks → attendanceStep courses (some t) = courses) := by
  constructor
  · intro input c hc p hp
    cases input with
    | error e => simp [getAttendanceData] at hc
    | ok titles =>
      simp only [getAttendanceData, getAttendanceOk] at hc
      obtain ⟨q, hq, hqc⟩ := List.mem_map.mp hc
      have hok := foldl_attendanceStep_marksOk titles [] (by intro q hq; simp at hq)
      have hmarks : c.marks = q.2 := by rw [← hqc]
      rw [hmarks] at hp
      exact hok q hq p hp
  · intro courses t hm
    simp only [attendanceStep, hm, if_false]

/-- Claim C6, witness: an event with the off-list label `"Jokin muu merkintä"`
leaves the counters untouched. -/
theorem attendance_allowlist_witness :
    attendanceStep [] (some "BG04;Jokin muu merkintä/x") = [] :=
  attendance_allowlist.2 [] "BG04;Jokin muu merkintä/x" (by decide)

/-! ## Claim C4: ECTS totals -/

/-- Claim C4: with a footer totals row the summary's per-year and grand totals
are read from the footer alone (they do not depend on the body rows); without
one, each year's total is the sum of that year's values over the body rows and
the grand total is the sum of the row totals; on the worked example
(years 2024/2025, rows Pakollinen 5+3 and Valinnainen 2+1, no footer) this
gives `byYear = [2024 ↦ 7, 2025 ↦ 4]` and `total = 11`. -/
theorem ects_totals_spec :
    (∀ (hc : List String) (b b' : List (List String)) (f : List String),
      (getEctsOk ⟨hc, b, some f⟩).byYear = (getEctsOk ⟨hc, b', some f⟩).byYear ∧
      (getEctsOk ⟨hc, b, some f⟩).total = (getEctsOk ⟨hc, b', some f⟩).total) ∧
    (∀ t : EctsTable, t.footerTotals = none →
      (getEctsOk t).total = qSum ((getEctsOk t).rows.map (fun r => r.total)) ∧
      ∀ y ∈ (getEctsOk t).years,
        recGet (getEctsOk t).byYear y =
          some (qSum ((getEctsOk t).rows.map (fun r => (recGet r.byYear y).getD 0)))) ∧
    ((getEctsOk sampleEctsTable).years = ["2024", "2025"] ∧
     (getEctsOk sampleEctsTable).byYear = [("2024", 7), ("2025", 4)] ∧
     (getEctsOk sampleEctsTable).total = 11) := by
  refine ⟨fun hc b b' f => ⟨rfl, rfl⟩, ?_, by decide⟩
  intro t hft
  obtain ⟨hc, b, ft⟩ := t
  cases ft with
  | some f => simp at hft
  | none =>
    refine ⟨rfl, ?_⟩
    intro y hy
    have := recGet_foldl_set
      (fun z => qSum (((b.filterMap (ectsBodyRow
        (((hc.drop 1).dropLast).filter (fun v => v ≠ "")))).map
          (fun r => (recGet r.byYear z).getD 0))))
      (((hc.drop 1).dropLast).filter (fun v => v ≠ "")) [] y
    simp only [getEctsOk] at hy ⊢
    rw [this]
    simp only [hy, if_true]

/-- Claim C4, witness: instantiating the no-footer case on the worked example
for year `"2024"`. -/
theorem ects_totals_spec_witness :
    recGet (getEctsOk sampleEctsTable).byYear "2024" =
      some (qSum ((getEctsOk sampleEctsTable).rows.map
        (fun r => (recGet r.byYear "2024").getD 0))) :=
  (ects_totals_spec.2.1 sampleEctsTable rfl).2 "2024" (by decide)

/-! ## Claim C10: the merge is a per-course frame update -/

/-- Claim C10: the attendance merge preserves the length and order of the
course list; every course keeps all its fields except `attendanceMarks` and
`attendanceTotal`; `attendanceTotal` is always the sum of the counts in
`attendanceMarks`; and a course whose normalized code matches no attendance
record gets empty marks and total 0. -/
theorem merge_frame (courses : List GradebookCourse) (att : List AttendanceData) :
    (mergeAttendanceIntoGradebookCourses courses att).length = courses.length ∧
    (∀ (i : Nat) (c : GradebookCourse), courses[i]? = some c →
      ∃ c', (mergeAttendanceIntoGradebookCourses courses att)[i]? = some c' ∧
        c'.courseCode = c.courseCode ∧ c'.courseName = c.courseName ∧
        c'.curriculum = c.curriculum ∧ c'.subject = c.subject ∧
        c'.track = c.track ∧ c'.hierarchy = c.hierarchy ∧
        c'.level = c.level ∧ c'.grade = c.grade ∧
        c'.gradeValue = c.gradeValue ∧ c'.ects = c.ects ∧
        c'.completionDate = c.completionDate ∧
        c'.completionDateIso = c.completionDateIso ∧
        c'.teacher = c.teacher ∧
        (∃ marks, c'.attendanceMarks = some marks ∧
          c'.attendanceTotal = some ((marks.map (fun p => p.2)).sum)) ∧
        ((∀ a ∈ att, normalizeCourseCode a.courseCode ≠ normalizeCourseCode c.courseCode) →
          c'.attendanceMarks = some [] ∧ c'.attendanceTotal = some 0)) := by
  constructor
  · simp [mergeAttendanceIntoGradebookCourses]
  · intro i c hc
    unfold mergeAttendanceIntoGradebookCourses
    rw [List.getElem?_map, hc]
    refine ⟨_, rfl, rfl, rfl, rfl, rfl, rfl, rfl, rfl, rfl, rfl, rfl, rfl, rfl, rfl,
      ⟨_, rfl, rfl⟩, ?_⟩
    intro hno
    have hget : recGet (att.foldl
        (fun m a => recSet m (normalizeCourseCode a.courseCode) a.marks) [])
        (normalizeCourseCode c.courseCode) = none :=
      recGet_foldl_none att (fun a => normalizeCourseCode a.courseCode)
        (fun a => a.marks) (normalizeCourseCode c.courseCode) [] rfl hno
    simp [hget]

/-- Claim C10, witness: merging a single course with a non-matching attendance
record keeps the length and yields empty marks and a zero total. -/
theorem merge_frame_witness :
    (mergeAttendanceIntoGradebookCourses [courseBg04] [attendanceOther]).length = 1 ∧
    (mergeAttendanceIntoGradebookCourses [courseBg04] [attendanceOther])[0]?.map
        (fun c => (c.attendanceMarks, c.attendanceTotal)) =
      some (some [], some 0) := by
  obtain ⟨hlen, hframe⟩ := merge_frame [courseBg04] [attendanceOther]
  obtain ⟨c', hc', -, -, -, -, -, -, -, -, -, -, -, -, -, -, hnone⟩ :=
    hframe 0 courseBg04 rfl
  obtain ⟨hmarks, htotal⟩ := hnone (by decide)
  refine ⟨hlen, ?_⟩
  rw [hc']
  simp [hmarks, htotal]

/-! ## Claim C7: late-subscriber replay -/

/-- Claim C7: a subscriber attaching after the job's event sequence ended with
a terminal event receives exactly that terminal event, the stream is closed
immediately, and no progress event is delivered. -/
theorem late_subscriber_replay (updates : List ProgressUpdate) (t : StreamEvent)
    (ht : t.isProgress = false) :
    attachToJob (pushAll createScrapeJob
        (updates.map StreamEvent.progress ++ [t])) = ⟨[t], true⟩ ∧
    ∀ e ∈ (attachToJob (pushAll createScrapeJob
        (updates.map StreamEvent.progress ++ [t]))).delivered,
      e.isProgress = false := by
  have hjob : pushAll createScrapeJob (updates.map StreamEvent.progress ++ [t]) =
      ⟨t, true⟩ := by
    unfold pushAll
    rw [List.foldl_append]
    show pushJobEvent _ t = _
    simp [pushJobEvent, ht]
  constructor
  · rw [hjob]
    rfl
  · intro e he
    rw [hjob] at he
    simp only [attachToJob, List.mem_singleton] at he
    rw [he]
    exact ht

/-- Claim C7, witness: after one progress update and the terminal done event,
a new subscriber gets exactly the done event and an immediately closed
stream. -/
theorem late_subscriber_replay_witness :
    attachToJob (pushAll createScrapeJob
        ([⟨8, "login", "Yhdistetään Wilmaan..."⟩].map StreamEvent.progress ++
          [sampleDone])) = ⟨[sampleDone], true⟩ :=
  (late_subscriber_replay [⟨8, "login", "Yhdistetään Wilmaan..."⟩] sampleDone rfl).1

/-! ## Claim C8: progress percentages are monotone -/

theorem chain_le_append_single (l : List Nat) (b : Nat)
    (h1 : l.Chain' (· ≤ ·)) (h2 : ∀ x ∈ l, x ≤ b) :
    (l ++ [b]).Chain' (· ≤ ·) := by
  refine List.Chain'.append h1 (List.chain'_singleton b) ?_
  intro x hx y hy
  obtain ⟨hne, hx'⟩ := List.mem_getLast?_eq_getLast hx
  have hxl : x ∈ l := hx' ▸ List.getLast_mem hne
  have hyb : b = y := by simpa using hy
  rw [← hyb]
  exact h2 x hxl

theorem chain_run (ps : List Nat) (k : Nat)
    (h1 : (2 :: ps).Chain' (· ≤ ·)) (h2 : ∀ x ∈ ps, x ≤ 100) :
    ((2 :: ps) ++ [100]).Chain' (· ≤ ·) ∧
    ((2 :: ps.take k) ++ [100]).Chain' (· ≤ ·) := by
  constructor
  · refine chain_le_append_single _ _ h1 ?_
    intro x hx
    rcases List.mem_cons.mp hx with rfl | hx
    · omega
    · exact h2 x hx
  · have h1' : (2 :: ps.take k).Chain' (· ≤ ·) := by
      have := h1.take (k + 1)
      simpa [List.take_succ_cons] using this
    refine chain_le_append_single _ _ h1' ?_
    intro x hx
    rcases List.mem_cons.mp hx with rfl | hx
    · omega
    · exact h2 x (List.take_subset _ _ hx)

/-- Claim C8: for every mode, both on success and on a failure after any number
of progress updates, the percent values of the full event sequence — from the
initial queued event at 2 through the terminal event at 100 — are monotonically
non-decreasing. -/
theorem percent_monotone (mode : ScrapeMode) (result : WrappedDataResponse) (k : Nat)
    (err : String) (details : Option String) (status : Nat) :
    ((initialJobEvent :: runJobEventsSuccess mode result).map eventPercent).Chain'
      (· ≤ ·) ∧
    ((initialJobEvent :: runJobEventsFailure mode k err details status).map
      eventPercent).Chain' (· ≤ ·) := by
  cases mode with
  | all =>
    refine ⟨(chain_run [8, 24, 40, 58, 82, 96] k (by simp [List.chain'_cons]) (by decide)).1, ?_⟩
    have h := (chain_run [8, 24, 40, 58, 82, 96] k (by simp [List.chain'_cons]) (by decide)).2
    simp only [runJobEventsFailure, scrapeProgressUpdates, initialJobEvent, errorEvent,
      List.map_cons, List.map_append, List.map_map, List.map_take]
    exact h
  | unread =>
    refine ⟨(chain_run [8, 24, 55, 92] k (by simp [List.chain'_cons]) (by decide)).1, ?_⟩
    have h := (chain_run [8, 24, 55, 92] k (by simp [List.chain'_cons]) (by decide)).2
    simp only [runJobEventsFailure, scrapeProgressUpdates, initialJobEvent, errorEvent,
      List.map_cons, List.map_append, List.map_map, List.map_take]
    exact h
  | grades =>
    refine ⟨(chain_run [8, 24, 52, 92] k (by simp [List.chain'_cons]) (by decide)).1, ?_⟩
    have h := (chain_run [8, 24, 52, 92] k (by simp [List.chain'_cons]) (by decide)).2
    simp only [runJobEventsFailure, scrapeProgressUpdates, initialJobEvent, errorEvent,
      List.map_cons, List.map_append, List.map_map, List.map_take]
    exact h
  | attendance =>
    refine ⟨(chain_run [8, 24, 52, 92] k (by simp [List.chain'_cons]) (by decide)).1, ?_⟩
    have h := (chain_run [8, 24, 52, 92] k (by simp [List.chain'_cons]) (by decide)).2
    simp only [runJobEventsFailure, scrapeProgressUpdates, initialJobEvent, errorEvent,
      List.map_cons, List.map_append, List.map_map, List.map_take]
    exact h

end ConnectWilma
